import Mathlib

/-
Verification of the hyper-text editor core against its design document.

The development shallowly embeds the relevant parts of the source:

 * the block segmenter `parseContentIntoBlocks` of the editor component
   (it runs on the node tree produced by the lenient browser parser, so the
   embedding works directly on parsed node trees);
 * the cursor save/restore walk of the view/model reconciler;
 * the document-store hook built on the external CRDT text container
   (`updateContent`, `insertText`, `deleteText`, `getSnapshot`,
   `loadSnapshot`); the container itself ships as a third-party binary, so
   its container operations are modelled from their documented semantics
   and from the design document, as noted on each definition;
 * the event-loop scheduling of the suppression flags;
 * the viewport windowing computation, modelled from the design document
   since the windowing library is external to the repository.
-/

set_option maxRecDepth 4000

/-
Part 1: parsed HTML node trees.

A node is either a text node or an element with a tag and a list of child
nodes.  Attributes are elided: no claim under verification depends on
them, and the segmenter copies them through opaquely inside `outerHTML`.
The mutual list type stands for the `childNodes` sequence.
-/

mutual

inductive HNode where
  | text : String → HNode
  | element : String → HNodeList → HNode

inductive HNodeList where
  | nil : HNodeList
  | cons : HNode → HNodeList → HNodeList

end

/-- Number of nodes in a node list. -/
def hLen : HNodeList → Nat
  | .nil => 0
  | .cons _ ns => hLen ns + 1

mutual

/-- Serialization of a node, the `outerHTML` of the browser DOM.  Void
elements are serialized with an explicit closing tag; entity escaping is
not modelled.  Neither difference affects any claim. -/
def outerHTML : HNode → String
  | .text s => s
  | .element tag cs => "<" ++ tag ++ ">" ++ innerHTMLList cs ++ "</" ++ tag ++ ">"

/-- Serialization of a node list in order. -/
def innerHTMLList : HNodeList → String
  | .nil => ""
  | .cons n ns => outerHTML n ++ innerHTMLList ns

end

mutual

/-- Total text content length of a node, the length of `textContent`. -/
def textLen : HNode → Nat
  | .text s => s.length
  | .element _ cs => textLenList cs

/-- Total text content length of a node list. -/
def textLenList : HNodeList → Nat
  | .nil => 0
  | .cons n ns => textLen n + textLenList ns

end

/-- Coarse block kind tag, the `type` field of an editor block. -/
inductive BlockType where
  | text
  | heading
  | list
  | code
  | blockquote
  deriving DecidableEq, Repr

/-- One derived block, as produced by the segmenter. -/
structure EditorBlock where
  id : String
  content : String
  type : BlockType
  deriving DecidableEq, Repr

/-- Tag classification of the segmenter, mirroring the if/else chain of
`processNode` in source order: headings, then lists, then `pre`, then
`blockquote`, then the paragraph-like tags.  `none` means the element is
an unclassified wrapper whose children are processed instead. -/
def classifyTag (tag : String) : Option BlockType :=
  if tag = "h1" ∨ tag = "h2" ∨ tag = "h3" ∨ tag = "h4" ∨ tag = "h5" ∨ tag = "h6" then
    some BlockType.heading
  else if tag = "ul" ∨ tag = "ol" then
    some BlockType.list
  else if tag = "pre" then
    some BlockType.code
  else if tag = "blockquote" then
    some BlockType.blockquote
  else if tag = "p" ∨ tag = "div" then
    some BlockType.text
  else
    none

/-- Appends one block, mirroring `blocks.push({id: block-<n>, ...})` with
the post-increment of the `blockId` counter. -/
def pushBlock (st : List EditorBlock × Nat) (content : String) (ty : BlockType) :
    List EditorBlock × Nat :=
  (st.1 ++ [⟨"block-" ++ toString st.2, content, ty⟩], st.2 + 1)

mutual

/-- The `processNode` recursion of `parseContentIntoBlocks`.  Classified
elements emit one block carrying their `outerHTML` (for `p`/`div` the
source writes `element.outerHTML || element.textContent || ...` but the
fallbacks are unreachable, the `outerHTML` of an element is never the
empty string); unclassified elements recurse into their children; text
nodes with non-whitespace content are wrapped into a paragraph block, and
whitespace-only text nodes are skipped. -/
def processNode (st : List EditorBlock × Nat) (n : HNode) : List EditorBlock × Nat :=
  match n with
  | .element tag cs =>
    match classifyTag tag with
    | some ty => pushBlock st (outerHTML (.element tag cs)) ty
    | none => processNodeList st cs
  | .text s =>
    if s.trim ≠ "" then pushBlock st ("<p>" ++ s ++ "</p>") BlockType.text else st

/-- Processes the children of the document body in order. -/
def processNodeList (st : List EditorBlock × Nat) (ns : HNodeList) :
    List EditorBlock × Nat :=
  match ns with
  | .nil => st
  | .cons n rest => processNodeList (processNode st n) rest

end

/-- The synthesized empty placeholder block. -/
def defaultEmptyBlock : EditorBlock :=
  ⟨"block-0", "<p><br/></p>", BlockType.text⟩

/-- The segmenter.  The browser `DOMParser` step is external and lenient
(it always produces some tree), so the embedding takes the parsed body
children as input.  If segmentation yields no block, the single default
empty block is synthesized. -/
def parseContentIntoBlocks (body : HNodeList) : List EditorBlock :=
  let st := processNodeList ([], 0) body
  if st.1.length = 0 then [defaultEmptyBlock] else st.1

/-- Concatenation of the content fragments of a block list, in order. -/
def concatContents : List EditorBlock → String
  | [] => ""
  | b :: bs => b.content ++ concatContents bs

/-- Removes every ASCII whitespace character.  Two strings equivalent
modulo whitespace normalization in any reasonable sense agree after this
map, so disagreement after it refutes the equivalence. -/
def stripWs (s : String) : String :=
  String.mk (s.data.filter fun c => !(c == ' ' || c == '\n' || c == '\t' || c == '\r'))

/-- A node that the segmenter classifies directly into a block. -/
def isClassified : HNode → Bool
  | .element tag _ => (classifyTag tag).isSome
  | .text _ => false

/-- Every node of the list is a classified element. -/
def allClassified : HNodeList → Bool
  | .nil => true
  | .cons n ns => isClassified n && allClassified ns

/-- A snapshot body of `n` identical paragraph blocks. -/
def mkPList : Nat → HNodeList
  | 0 => .nil
  | n + 1 => .cons (.element ("p") (.cons (.text ("x")) .nil)) (mkPList n)

/-
Part 2: cursor preservation walk of the reconciler.

`saveCursorPosition` measures the text of the range from the start of the
editable region to the caret and returns its length; the embedding takes
that pre-caret text as input.  `restoreCursorPosition` walks the freshly
rewritten tree with a decreasing character budget and places the caret in
the first text node where the budget is exhausted.  The embedding keeps
the abstraction that matters to the claims: the global character offset
at which the caret ends up, `Sum.inl o` standing for a produced range at
text offset `o` inside the walked subtree and `Sum.inr c` for a null
return with the mutated budget `c`.
-/

/-- The caret offset computed before a store-driven rewrite: the length
of the text between the region start and the caret. -/
def saveCursorPosition (preCaretText : String) : Nat :=
  preCaretText.length

mutual

/-- The `createRange` recursion of `restoreCursorPosition`.  A zero
budget places the caret at the start of the current node; a text node
absorbs the budget if long enough and otherwise subtracts its length; an
element recurses through its children in order. -/
def createRange (n : HNode) (c : Nat) : Sum Nat Nat :=
  if c = 0 then Sum.inl 0
  else
    match n with
    | .text s => if s.length ≥ c then Sum.inl c else Sum.inr (c - s.length)
    | .element _ cs => createRangeList cs c

/-- Child loop of `createRange`: the budget left by a child that did not
place the caret flows into the next child; a placement inside a later
child is offset by the text length of the earlier ones. -/
def createRangeList (ns : HNodeList) (c : Nat) : Sum Nat Nat :=
  match ns with
  | .nil => Sum.inr c
  | .cons n rest =>
    match createRange n c with
    | Sum.inl o => Sum.inl o
    | Sum.inr c2 =>
      match createRangeList rest c2 with
      | Sum.inl o => Sum.inl (textLen n + o)
      | Sum.inr c3 => Sum.inr c3

end

/-- Restores the caret in the rewritten region: `some o` is the global
text offset at which the caret is placed, `none` means no range was
found and the selection is left untouched. -/
def restoreCursorPosition (root : HNode) (position : Nat) : Option Nat :=
  match createRange root position with
  | Sum.inl o => some o
  | Sum.inr _ => none

/-
Part 3: the replicated document store hook.

The hook owns a CRDT text container plus React state.  The container is
the external `loro-crdt` package, so its operations are modelled here:
`spliceInsert`/`spliceDelete` are the documented character-index splice
semantics of the text container (out-of-bounds indices raise), `commit`
flushes the pending operations and, when at least one operation was
pending, emits exactly one change event to the document subscribers, as
the design document states (a listener is invoked after every committed
change).  The hook itself (`updateContent`, `insertText`, `deleteText`,
`getSnapshot`, `loadSnapshot`, the subscription callback) is embedded
from the source.  An `Except.error` outcome models an exception that the
hook does not catch and that therefore propagates to the caller.
-/

/-- Errors of the modelled container: a failed snapshot decode and an
out-of-bounds text index. -/
inductive LoroError where
  | corruptImport
  | outOfBounds
  deriving DecidableEq, Repr

/-- The CRDT document: the text container content and the number of
operations recorded since the last commit. -/
structure LoroDoc where
  content : String
  pendingOps : Nat
  deriving DecidableEq, Repr

/-- The state held by the hook: the document ref (absent before the init
effect ran), the React content state, the internal-update suppression
flag, and a counter of change events delivered to subscribers. -/
structure LoroEditorState where
  doc : Option LoroDoc
  reactContent : String
  isInternalUpdate : Bool
  notifications : Nat
  deriving DecidableEq, Repr

/-- Character splice underlying `LoroText.insert`; the insert position
must not exceed the content length. -/
def spliceInsert (s : String) (pos : Nat) (t : String) : String :=
  String.mk (s.data.take pos ++ t.data ++ s.data.drop pos)

/-- Character splice underlying `LoroText.delete` of `len` characters
starting at `start`. -/
def spliceDelete (s : String) (start len : Nat) : String :=
  String.mk (s.data.take start ++ s.data.drop (start + len))

/-- Modelled `LoroText.insert`: raises out-of-bounds when the position
exceeds the current length, otherwise splices and records one pending
operation (none for an empty insertion). -/
def loroTextInsert (d : LoroDoc) (pos : Nat) (t : String) : Except LoroError LoroDoc :=
  if pos ≤ d.content.length then
    Except.ok ⟨spliceInsert d.content pos t, d.pendingOps + (if t = "" then 0 else 1)⟩
  else
    Except.error LoroError.outOfBounds

/-- Modelled `LoroText.delete`: raises out-of-bounds when the deleted
range exceeds the content, otherwise splices and records one pending
operation (none for an empty range). -/
def loroTextDelete (d : LoroDoc) (start len : Nat) : Except LoroError LoroDoc :=
  if start + len ≤ d.content.length then
    Except.ok ⟨spliceDelete d.content start len, d.pendingOps + (if len = 0 then 0 else 1)⟩
  else
    Except.error LoroError.outOfBounds

/-- Modelled `loroDoc.commit()` combined with the subscription installed
by the hook: a commit with pending operations emits one change event;
the callback of the hook copies the container text into the React
content state unless the internal-update flag is set. -/
def commitDoc (s : LoroEditorState) (d : LoroDoc) : LoroEditorState :=
  if d.pendingOps > 0 then
    { doc := some ⟨d.content, 0⟩
      reactContent := if s.isInternalUpdate then s.reactContent else d.content
      isInternalUpdate := s.isInternalUpdate
      notifications := s.notifications + 1 }
  else
    { s with doc := some d }

/-- The `updateContent` function of the hook: sets the internal-update
flag, clears the whole container (when non-empty), reinserts the new
content (when non-empty), commits, sets the React content state, and
clears the flag.  The two container calls cannot fail (both indices are
in bounds), so the error fallbacks are unreachable. -/
def updateContent (s : LoroEditorState) (newContent : String) : LoroEditorState :=
  match s.doc with
  | none => s
  | some d =>
    let s1 : LoroEditorState := { s with isInternalUpdate := true }
    let d1 : LoroDoc :=
      if d.content.length > 0 then
        match loroTextDelete d 0 d.content.length with
        | Except.ok d2 => d2
        | Except.error _ => d
      else d
    let d2 : LoroDoc :=
      if newContent ≠ "" then
        match loroTextInsert d1 0 newContent with
        | Except.ok d3 => d3
        | Except.error _ => d1
      else d1
    let s2 := commitDoc s1 d2
    let s3 : LoroEditorState := { s2 with reactContent := newContent }
    { s3 with isInternalUpdate := false }

/-- The `insertText` function of the hook: a silent no-op when the store
was never initialized; otherwise inserts at the given position (default:
end of content) and commits.  A container error escapes uncaught, with
the state unchanged. -/
def insertText (s : LoroEditorState) (text : String) (position : Option Nat) :
    Except LoroError Unit × LoroEditorState :=
  match s.doc with
  | none => (Except.ok (), s)
  | some d =>
    let insertPos := position.getD d.content.length
    match loroTextInsert d insertPos text with
    | Except.error e => (Except.error e, s)
    | Except.ok d1 => (Except.ok (), commitDoc s d1)

/-- The `deleteText` function of the hook: a silent no-op when the store
was never initialized; otherwise deletes the range and commits.  A
container error escapes uncaught, with the state unchanged. -/
def deleteText (s : LoroEditorState) (start len : Nat) :
    Except LoroError Unit × LoroEditorState :=
  match s.doc with
  | none => (Except.ok (), s)
  | some d =>
    match loroTextDelete d start len with
    | Except.error e => (Except.error e, s)
    | Except.ok d1 => (Except.ok (), commitDoc s d1)

/-- Modelled from the spec: the exported snapshot is an opaque tagged
byte encoding of the full document state; the container that produces
the real binary format is external to the repository.  The model tags
the content code points with a two-byte magic header. -/
def encodeSnapshot (content : String) : List Nat :=
  76 :: 82 :: content.data.map Char.toNat

/-- Decodes a byte list back into code points, rejecting any byte that
is not a valid code point. -/
def decodeChars : List Nat → Option (List Char)
  | [] => some []
  | b :: bs =>
    if (Char.ofNat b).toNat = b then
      match decodeChars bs with
      | some cs => some (Char.ofNat b :: cs)
      | none => none
    else none

/-- Modelled from the spec: snapshot parsing; bytes without the magic
header or with an invalid code point are malformed and rejected before
any state is touched. -/
def decodeSnapshot : List Nat → Option String
  | 76 :: 82 :: rest =>
    match decodeChars rest with
    | some cs => some (String.mk cs)
    | none => none
  | _ => none

/-- Modelled from the spec: the CRDT merge never discards local edits,
and importing a snapshot into a fresh (empty) document adopts the
snapshot content.  The design document does not determine the merged
content for two conflicting non-empty states, and no claim exercises
that case; the model keeps the local content there. -/
def loroMerge (lcl remote : String) : String :=
  if lcl = "" then remote else lcl

/-- Modelled `loroDoc.import`: malformed bytes raise before any state is
touched (no partial merge); well-formed bytes merge the snapshot content
and record the application as a pending change. -/
def loroImport (d : LoroDoc) (bytes : List Nat) : Except LoroError LoroDoc :=
  match decodeSnapshot bytes with
  | none => Except.error LoroError.corruptImport
  | some remote => Except.ok ⟨loroMerge d.content remote, d.pendingOps + 1⟩

/-- The `getSnapshot` function of the hook: `none` when the store was
never initialized (the optional chaining of the source), otherwise the
exported snapshot bytes. -/
def getSnapshot (s : LoroEditorState) : Option (List Nat) :=
  s.doc.map fun d => encodeSnapshot d.content

/-- The `loadSnapshot` function of the hook: silently returns when the
store was never initialized; otherwise imports the bytes.  The source
catches nothing and returns void, so an import failure can only escape
as a thrown exception, modelled by the `Except.error` component, with
the state unchanged; a successful import delivers its change event. -/
def loadSnapshot (s : LoroEditorState) (bytes : List Nat) :
    Except LoroError Unit × LoroEditorState :=
  match s.doc with
  | none => (Except.ok (), s)
  | some d =>
    match loroImport d bytes with
    | Except.error e => (Except.error e, s)
    | Except.ok d1 => (Except.ok (), commitDoc s d1)

/-- The current content of the store as the editor observes it: the
React content state returned by the hook. -/
def getContent (s : LoroEditorState) : String :=
  s.reactContent

/-- An initialized store holding content `C` with nothing pending. -/
def mkStore (C : String) : LoroEditorState :=
  ⟨some ⟨C, 0⟩, C, false, 0⟩

/-- A fresh store, as created by the init effect of the hook. -/
def freshEditorState : LoroEditorState :=
  mkStore ""

/-
Part 4: event-loop scheduling of the reconciler suppression flag.

`handleInput` sets `isUpdatingRef.current = true` and schedules the only
callback the reconciler ever queues, `() => isUpdatingRef.current =
false`, with `setTimeout(..., 0)`.  Per the host event-loop semantics a
zero-delay timer callback is a task, not a microtask: the microtask
queue of the current tick drains before any timer callback runs.  The
model counts the queued flag-clearing callbacks per queue and runs the
two queue phases. -/

/-- Scheduling state of the reconciler around one editable region:
the suppression flag and the number of queued flag-clearing callbacks on
each queue.  The source schedules callbacks only on the timer queue. -/
structure SuppressionState where
  isUpdating : Bool
  microJobs : Nat
  timerJobs : Nat
  deriving DecidableEq, Repr

/-- Effect of `handleInput` on the scheduling state: the flag is set and
one zero-delay timer callback clearing it is queued. -/
def handleInputRun (s : SuppressionState) : SuppressionState :=
  ⟨true, s.microJobs, s.timerJobs + 1⟩

/-- Runs every queued microtask at the end of the current tick.  Each
queued callback is a flag clear, so the flag survives exactly when no
microtask was queued. -/
def runMicrotaskPhase (s : SuppressionState) : SuppressionState :=
  ⟨if s.microJobs > 0 then false else s.isUpdating, 0, s.timerJobs⟩

/-- Runs the queued zero-delay timer callbacks of the next task. -/
def runTimerTaskPhase (s : SuppressionState) : SuppressionState :=
  ⟨if s.timerJobs > 0 then false else s.isUpdating, s.microJobs, 0⟩

/-- The scheduling state before an input event: flag down, no queued
callbacks. -/
def idleSuppression : SuppressionState :=
  ⟨false, 0, 0⟩

/-
Part 5: viewport windowing and the block memo.

The windowing engine is the external windowing library; the design
document specifies its computation, so it is modelled from there:
every index carries the default size estimate before measurement, the
first visible index is the smallest whose cumulative offset reaches the
scroll offset, the last visible index the largest whose cumulative
offset stays within the viewport, and both ends are expanded by the
overscan count and clamped to the index range.
-/

/-- Modelled from the spec: smallest index whose cumulative offset
(index times estimate, before any measurement) is at least the scroll
offset. -/
def firstVisibleIndex (scroll estimate : Nat) : Nat :=
  (scroll + estimate - 1) / estimate

/-- Modelled from the spec: largest index whose cumulative offset stays
at most scroll offset plus viewport height, clamped to the block
count. -/
def lastVisibleIndex (count scroll viewport estimate : Nat) : Nat :=
  min (count - 1) ((scroll + viewport) / estimate)

/-- Modelled from the spec: first rendered index after overscan
expansion (the truncated subtraction clamps at zero). -/
def virtualRangeStart (scroll estimate overscan : Nat) : Nat :=
  firstVisibleIndex scroll estimate - overscan

/-- Modelled from the spec: last rendered index after overscan
expansion, clamped to the block count. -/
def virtualRangeEnd (count scroll viewport estimate overscan : Nat) : Nat :=
  min (count - 1) (lastVisibleIndex count scroll viewport estimate + overscan)

/-- Modelled from the spec: the number of items returned by
`getVirtualItems()` for the given configuration. -/
def getVirtualItemsLength (count scroll viewport estimate overscan : Nat) : Nat :=
  if count = 0 then 0
  else virtualRangeEnd count scroll viewport estimate overscan + 1
    - virtualRangeStart scroll estimate overscan

/-- The `blocks` memo of the editor component: with virtualization off,
or with empty content (the falsiness test on the content string, an
empty string parses to an empty body), the memo returns the empty list
without segmenting; otherwise it segments the content. -/
def blocksMemo (useVirtualization : Bool) (content : HNodeList) : List EditorBlock :=
  match useVirtualization, content with
  | false, _ => []
  | true, .nil => []
  | true, body => parseContentIntoBlocks body

/-
Part 6: concrete inputs used by witnesses and counterexamples.
-/

/-- A body holding a single horizontal rule. -/
def hrOnlyInput : HNodeList :=
  .cons (.element ("hr") .nil) .nil

/-- A body with two paragraphs separated by a horizontal rule. -/
def hrBetweenInput : HNodeList :=
  .cons (.element ("p") (.cons (.text ("a")) .nil))
    (.cons (.element ("hr") .nil)
      (.cons (.element ("p") (.cons (.text ("b")) .nil)) .nil))

/-- A body with one heading followed by one paragraph, fully
classified. -/
def classifiedInput : HNodeList :=
  .cons (.element ("h1") (.cons (.text ("t")) .nil))
    (.cons (.element ("p") (.cons (.text ("a")) .nil)) .nil)

/-- The editable region after a remote update inserted the two
characters XY at text position 0 of the old content abcd. -/
def insertBeforeTree : HNode :=
  .element ("div") (.cons (.element ("p") (.cons (.text ("XYabcd")) .nil)) .nil)

/-- Invariant carried by the segmentation state: the id counter equals
the number of emitted blocks and the emitted ids are block-0, block-1,
... in order. -/
def idsOk (st : List EditorBlock × Nat) : Prop :=
  st.2 = st.1.length ∧
    st.1.map EditorBlock.id
      = (List.range st.1.length).map fun i => "block-" ++ toString i

/-
Theorems.  Helper lemmas come first, the claim theorems carry the claim
identifier in their doc comment.
-/

theorem concatContents_append (l1 l2 : List EditorBlock) :
    concatContents (l1 ++ l2) = concatContents l1 ++ concatContents l2 := by
  induction l1 with
  | nil => simp [concatContents]
  | cons b bs ih => simp [concatContents, ih, String.append_assoc]

theorem processNode_classified (st : List EditorBlock × Nat) (tag : String)
    (cs : HNodeList) (ty : BlockType) (h : classifyTag tag = some ty) :
    processNode st (.element tag cs) = pushBlock st (outerHTML (.element tag cs)) ty := by
  simp only [processNode, h]

theorem allClassified_contents : ∀ (ns : HNodeList) (st : List EditorBlock × Nat),
    allClassified ns = true →
    concatContents (processNodeList st ns).1 = concatContents st.1 ++ innerHTMLList ns
  | .nil, st, _ => by simp [processNodeList, innerHTMLList]
  | .cons n rest, st, h => by
    simp only [allClassified, Bool.and_eq_true] at h
    obtain ⟨hn, hrest⟩ := h
    match n, hn with
    | .element tag cs, hn =>
      simp only [isClassified, Option.isSome_iff_exists] at hn
      obtain ⟨ty, hty⟩ := hn
      rw [processNodeList, processNode_classified st tag cs ty hty,
        allClassified_contents rest _ hrest]
      simp [pushBlock, concatContents_append, concatContents, innerHTMLList,
        String.append_assoc]

theorem allClassified_length : ∀ (ns : HNodeList) (st : List EditorBlock × Nat),
    allClassified ns = true →
    (processNodeList st ns).1.length = st.1.length + hLen ns
  | .nil, st, _ => by simp [processNodeList, hLen]
  | .cons n rest, st, h => by
    simp only [allClassified, Bool.and_eq_true] at h
    obtain ⟨hn, hrest⟩ := h
    match n, hn with
    | .element tag cs, hn =>
      simp only [isClassified, Option.isSome_iff_exists] at hn
      obtain ⟨ty, hty⟩ := hn
      rw [processNodeList, processNode_classified st tag cs ty hty,
        allClassified_length rest _ hrest]
      simp [pushBlock, hLen]
      omega

theorem hLen_pos_of_ne_nil : ∀ ns : HNodeList, ns ≠ HNodeList.nil → 0 < hLen ns
  | .nil, h => absurd rfl h
  | .cons _ _, _ => by simp [hLen]

/-- C5 (amended): segmentation is lossless and order-preserving on
bodies whose top-level nodes are all classified elements: the
concatenation of the emitted fragments equals the serialization of the
input exactly.  For unclassified nodes losslessness fails, see the
counterexample. -/
theorem segmentation_lossless_on_classified (body : HNodeList)
    (h1 : allClassified body = true) (h2 : body ≠ HNodeList.nil) :
    concatContents (parseContentIntoBlocks body) = innerHTMLList body := by
  have hlen := allClassified_length body ([], 0) h1
  have hpos := hLen_pos_of_ne_nil body h2
  have hne : (processNodeList ([], 0) body).1.length ≠ 0 := by
    simp only [hlen]; omega
  have hcc := allClassified_contents body ([], 0) h1
  simp only [parseContentIntoBlocks, if_neg hne]
  simpa [concatContents] using hcc

theorem segmentation_lossless_on_classified_witness :
    allClassified classifiedInput = true ∧ classifiedInput ≠ HNodeList.nil ∧
      concatContents (parseContentIntoBlocks classifiedInput) = innerHTMLList classifiedInput :=
  ⟨by decide, by intro h; exact HNodeList.noConfusion h,
    segmentation_lossless_on_classified classifiedInput (by decide)
      (by intro h; exact HNodeList.noConfusion h)⟩

/-- C5 (counterexample): on the well-formed body p(a), hr, p(b) the
horizontal rule is dropped entirely by segmentation, so the concatenated
fragments differ from the input even after removing every whitespace
character. -/
theorem segmentation_drops_unclassified_node :
    stripWs (concatContents (parseContentIntoBlocks hrBetweenInput))
      ≠ stripWs (innerHTMLList hrBetweenInput) := by decide

/-- C6: if segmentation yields zero blocks the single synthesized empty
placeholder block is returned, the returned list is never empty, and the
empty body yields exactly the placeholder. -/
theorem parse_empty_yields_placeholder :
    (∀ body : HNodeList, (processNodeList ([], 0) body).1 = [] →
        parseContentIntoBlocks body = [defaultEmptyBlock])
    ∧ (∀ body : HNodeList, parseContentIntoBlocks body ≠ [])
    ∧ parseContentIntoBlocks HNodeList.nil = [defaultEmptyBlock] := by
  refine ⟨?_, ?_, by decide⟩
  · intro body h
    simp [parseContentIntoBlocks, h]
  · intro body
    simp only [parseContentIntoBlocks]
    split
    · simp
    · next hne => simpa using List.ne_nil_of_length_pos (by omega)

theorem parse_empty_yields_placeholder_witness :
    (processNodeList ([], 0) hrOnlyInput).1 = []
    ∧ parseContentIntoBlocks hrOnlyInput = [defaultEmptyBlock]
    ∧ parseContentIntoBlocks hrOnlyInput ≠ [] :=
  ⟨by decide, parse_empty_yields_placeholder.1 hrOnlyInput (by decide),
    parse_empty_yields_placeholder.2.1 hrOnlyInput⟩

theorem pushBlock_idsOk (st : List EditorBlock × Nat) (c : String) (ty : BlockType)
    (h : idsOk st) : idsOk (pushBlock st c ty) := by
  obtain ⟨hlen, hids⟩ := h
  constructor
  · simp [pushBlock]; omega
  · simp only [pushBlock, List.map_append, List.length_append, List.map_cons,
      List.map_nil, List.length_cons, List.length_nil]
    rw [hids, hlen]
    rw [show st.1.length + (0 + 1) = st.1.length + 1 by omega, List.range_succ]
    simp

mutual

theorem processNode_idsOk : ∀ (n : HNode) (st : List EditorBlock × Nat),
    idsOk st → idsOk (processNode st n)
  | .element tag cs, st, h => by
    cases hc : classifyTag tag with
    | some ty =>
      rw [processNode_classified st tag cs ty hc]
      exact pushBlock_idsOk st _ ty h
    | none =>
      simp only [processNode, hc]
      exact processNodeList_idsOk cs st h
  | .text s, st, h => by
    simp only [processNode]
    split
    · exact pushBlock_idsOk st _ _ h
    · exact h

theorem processNodeList_idsOk : ∀ (ns : HNodeList) (st : List EditorBlock × Nat),
    idsOk st → idsOk (processNodeList st ns)
  | .nil, _, h => h
  | .cons n rest, st, h =>
    processNodeList_idsOk rest (processNode st n) (processNode_idsOk n st h)

end

theorem ids_from_map (l : List EditorBlock)
    (hmap : l.map EditorBlock.id
      = (List.range l.length).map fun i => "block-" ++ toString i)
    (i : Nat) (h : i < l.length) :
    (l.get ⟨i, h⟩).id = "block-" ++ toString i := by
  have h1 : (l.map EditorBlock.id).get? i
      = ((List.range l.length).map fun j => "block-" ++ toString j).get? i := by
    rw [hmap]
  rw [List.get?_map, List.get?_map, List.get?_eq_get h, List.get?_eq_get (by simpa using h)]
    at h1
  simpa [List.get_range] using h1

theorem parse_ids_map (body : HNodeList) :
    (parseContentIntoBlocks body).map EditorBlock.id
      = (List.range (parseContentIntoBlocks body).length).map
          fun i => "block-" ++ toString i := by
  have hinv : idsOk (processNodeList ([], 0) body) :=
    processNodeList_idsOk body ([], 0) ⟨rfl, rfl⟩
  by_cases hc : (processNodeList ([], 0) body).1.length = 0
  · simp only [parseContentIntoBlocks, if_pos hc]
    decide
  · simp only [parseContentIntoBlocks, if_neg hc]
    exact hinv.2

/-- C10: for every input body, the block at index i of the segmentation
result carries the id block-i; ids are sequential from zero in emission
order, hence distinct within one pass. -/
theorem block_ids_sequential (body : HNodeList) (i : Nat)
    (h : i < (parseContentIntoBlocks body).length) :
    ((parseContentIntoBlocks body).get ⟨i, h⟩).id = "block-" ++ toString i :=
  ids_from_map (parseContentIntoBlocks body) (parse_ids_map body) i h

theorem block_ids_sequential_witness :
    1 < (parseContentIntoBlocks hrBetweenInput).length
    ∧ ((parseContentIntoBlocks hrBetweenInput).get ⟨1, by decide⟩).id
        = "block-" ++ toString 1 :=
  ⟨by decide, block_ids_sequential hrBetweenInput 1 (by decide)⟩

mutual

theorem createRange_place : ∀ (n : HNode) (c : Nat), 0 < c → c ≤ textLen n →
    createRange n c = Sum.inl c
  | .text s, c, hc, hle => by
    rw [textLen] at hle
    rw [createRange, if_neg (show ¬ c = 0 by omega)]
    rw [if_pos (show s.length ≥ c from hle)]
  | .element tag cs, c, hc, hle => by
    rw [textLen] at hle
    rw [createRange, if_neg (show ¬ c = 0 by omega)]
    exact createRangeList_place cs c hc hle

theorem createRange_skip : ∀ (n : HNode) (c : Nat), textLen n < c →
    createRange n c = Sum.inr (c - textLen n)
  | .text s, c, hlt => by
    rw [textLen] at hlt
    rw [createRange, if_neg (show ¬ c = 0 by omega)]
    rw [if_neg (show ¬ s.length ≥ c by omega), textLen]
  | .element tag cs, c, hlt => by
    rw [textLen] at hlt
    rw [createRange, if_neg (show ¬ c = 0 by omega)]
    rw [textLen]
    exact createRangeList_skip cs c hlt

theorem createRangeList_place : ∀ (ns : HNodeList) (c : Nat), 0 < c →
    c ≤ textLenList ns → createRangeList ns c = Sum.inl c
  | .nil, c, hc, hle => by
    rw [textLenList] at hle
    omega
  | .cons n rest, c, hc, hle => by
    rw [textLenList] at hle
    by_cases hn : c ≤ textLen n
    · simp only [createRangeList, createRange_place n c hc hn]
    · simp only [createRangeList, createRange_skip n c (by omega : textLen n < c),
        createRangeList_place rest (c - textLen n) (by omega) (by omega)]
      rw [show textLen n + (c - textLen n) = c by omega]

theorem createRangeList_skip : ∀ (ns : HNodeList) (c : Nat), textLenList ns < c →
    createRangeList ns c = Sum.inr (c - textLenList ns)
  | .nil, c, hlt => by
    rw [createRangeList, textLenList, Nat.sub_zero]
  | .cons n rest, c, hlt => by
    rw [textLenList] at hlt
    simp only [createRangeList, createRange_skip n c (by omega : textLen n < c),
      createRangeList_skip rest (c - textLen n) (by omega)]
    rw [textLenList, show c - textLen n - textLenList rest
      = c - (textLen n + textLenList rest) by omega]

end

/-- C7 (amended): whenever the saved offset fits into the rewritten
content, the reconciler restores the caret at exactly the saved numeric
character offset.  A remote insert strictly after the caret position
leaves the text before the caret unchanged and only grows the total
length, so the restored caret sits at offset k as claimed; but a remote
insert strictly before the caret also restores at the same numeric
offset k, not shifted forward by the inserted length, see the
counterexample. -/
theorem restore_caret_at_saved_offset (root : HNode) (k : Nat)
    (h : k ≤ textLen root) :
    restoreCursorPosition root k = some k := by
  rcases Nat.eq_zero_or_pos k with hz | hpos
  · subst hz
    rw [restoreCursorPosition, createRange.eq_def, if_pos rfl]
  · rw [restoreCursorPosition, createRange_place root k hpos h]

theorem restore_caret_at_saved_offset_witness :
    saveCursorPosition ("abc") ≤ textLen insertBeforeTree
    ∧ restoreCursorPosition insertBeforeTree (saveCursorPosition ("abc"))
        = some (saveCursorPosition ("abc")) :=
  ⟨by decide,
    restore_caret_at_saved_offset insertBeforeTree (saveCursorPosition ("abc")) (by decide)⟩

/-- C7 (counterexample): old content abcd with the caret saved at offset
3 (pre-caret text abc); a remote update inserts XY at position 0,
strictly before the caret, giving XYabcd.  The claim requires the
restored caret at offset 3 + 2 = 5, but the reconciler restores it at
the saved numeric offset 3. -/
theorem restore_after_insert_before_not_shifted :
    restoreCursorPosition insertBeforeTree (saveCursorPosition ("abc")) = some 3
    ∧ restoreCursorPosition insertBeforeTree (saveCursorPosition ("abc")) ≠ some (3 + 2) :=
  ⟨by decide, by decide⟩

theorem string_length_pos_of_ne_empty (s : String) (h : s ≠ "") : 0 < s.length := by
  rcases s with ⟨l⟩
  cases l with
  | nil => exact absurd rfl h
  | cons c cs => simp [String.length]

/-- C1 (counterexample): with current content a, the call
updateContent(a) still clears and reinserts the whole content and
commits it, emitting one store-change notification, not zero. -/
theorem updateContent_equal_content_not_silent :
    (updateContent (mkStore ("a")) ("a")).notifications ≠ (mkStore ("a")).notifications := by
  decide

theorem string_mk_data (s : String) : String.mk s.data = s := rfl

theorem spliceDelete_all (x : String) : spliceDelete x 0 x.length = "" := by
  show String.mk (x.data.take 0 ++ x.data.drop (0 + x.length)) = ""
  rw [List.take_zero, Nat.zero_add]
  show String.mk (List.nil ++ x.data.drop x.data.length) = ""
  rw [List.drop_length, List.nil_append]

theorem spliceInsert_into_empty (x : String) : spliceInsert "" 0 x = x := by
  show String.mk (List.take 0 List.nil ++ x.data ++ List.drop 0 List.nil) = x
  rw [List.take_zero, List.drop_nil, List.nil_append, List.append_nil]

/-- C1 (amended): updateContent(x) with current content already equal to
x is idempotent on the observable content (the store still holds x and
getContent returns x, with the internal-update flag back down), but it
is not a silent commit: for non-empty x the whole content is deleted and
reinserted and the commit emits exactly one store-change notification;
only for empty x is the call a true no-op with zero notifications. -/
theorem updateContent_equal_content_commits (s : LoroEditorState) (d : LoroDoc)
    (x : String) (hdoc : s.doc = some d) (hpend : d.pendingOps = 0)
    (hcontent : d.content = x) :
    (updateContent s x).doc = some ⟨x, 0⟩
    ∧ getContent (updateContent s x) = x
    ∧ (updateContent s x).isInternalUpdate = false
    ∧ (updateContent s x).notifications
        = s.notifications + (if x = "" then 0 else 1) := by
  have hd : d = ⟨x, 0⟩ := by
    obtain ⟨cont, pend⟩ := d
    dsimp at hpend hcontent
    rw [hpend, hcontent]
  rw [hd] at hdoc
  by_cases hx : x = ""
  · subst hx
    simp [updateContent, hdoc, commitDoc, getContent]
  · have hlen : 0 < x.length := string_length_pos_of_ne_empty x hx
    simp only [updateContent, hdoc, getContent]
    rw [if_pos hlen]
    simp only [loroTextDelete, if_pos (by omega : 0 + x.length ≤ x.length),
      spliceDelete_all, if_neg (by omega : ¬ x.length = 0)]
    rw [if_pos hx]
    simp only [loroTextInsert]
    rw [if_pos (by simp : (0 : Nat) ≤ String.length "")]
    simp only [spliceInsert_into_empty, if_neg hx]
    simp only [commitDoc]
    rw [if_pos (by omega : 0 + 1 + 1 > 0)]
    simp [if_neg hx]

theorem updateContent_equal_content_commits_witness :
    (mkStore ("a")).doc = some ⟨"a", 0⟩
    ∧ ((updateContent (mkStore ("a")) ("a")).doc = some ⟨"a", 0⟩
      ∧ getContent (updateContent (mkStore ("a")) ("a")) = "a"
      ∧ (updateContent (mkStore ("a")) ("a")).isInternalUpdate = false
      ∧ (updateContent (mkStore ("a")) ("a")).notifications
          = (mkStore ("a")).notifications + (if "a" = "" then 0 else 1)) :=
  ⟨by decide,
    updateContent_equal_content_commits (mkStore ("a")) ⟨"a", 0⟩ ("a")
      (by decide) (by decide) (by decide)⟩

/-- C2 (amended): malformed snapshot bytes leave the store state
entirely unchanged (no partial merge), but the failure is not returned
as an explicit CorruptSnapshot result: loadSnapshot returns void and
catches nothing, so the import error reaches the caller only as a
propagated exception, modelled by the error component. -/
theorem loadSnapshot_corrupt_propagates_unchanged (s : LoroEditorState)
    (d : LoroDoc) (bytes : List Nat) (hdoc : s.doc = some d)
    (hbad : decodeSnapshot bytes = none) :
    loadSnapshot s bytes = (Except.error LoroError.corruptImport, s) := by
  simp only [loadSnapshot, hdoc, loroImport, hbad]

theorem loadSnapshot_corrupt_propagates_unchanged_witness :
    (mkStore ("hello")).doc = some ⟨"hello", 0⟩
    ∧ decodeSnapshot [9, 9, 9] = none
    ∧ loadSnapshot (mkStore ("hello")) [9, 9, 9]
        = (Except.error LoroError.corruptImport, mkStore ("hello")) :=
  ⟨by decide, by decide,
    loadSnapshot_corrupt_propagates_unchanged (mkStore ("hello")) ⟨"hello", 0⟩
      [9, 9, 9] (by decide) (by decide)⟩

/-- C2 (counterexample): importing the garbage bytes 9, 9, 9 into a
store holding hello ends in the propagated-exception channel with the
state unchanged; no failure value is returned to the caller (the
ordinary return value of loadSnapshot carries no CorruptSnapshot
result, its success type is unit), contradicting the claim that the
failure is returned rather than thrown. -/
theorem loadSnapshot_corrupt_throws_not_returns :
    (loadSnapshot (mkStore ("hello")) [9, 9, 9]).1
        = Except.error LoroError.corruptImport
    ∧ (loadSnapshot (mkStore ("hello")) [9, 9, 9]).2 = mkStore ("hello")
    ∧ ∀ u : Unit, (loadSnapshot (mkStore ("hello")) [9, 9, 9]).1 ≠ Except.ok u := by
  refine ⟨rfl, by decide, ?_⟩
  intro u h
  exact Except.noConfusion h

theorem decodeChars_map_toNat (l : List Char) :
    decodeChars (l.map Char.toNat) = some l := by
  induction l with
  | nil => rfl
  | cons c cs ih =>
    simp only [List.map_cons, decodeChars]
    rw [if_pos (by rw [Char.ofNat_toNat]), ih, Char.ofNat_toNat]

theorem decodeSnapshot_encodeSnapshot (C : String) :
    decodeSnapshot (encodeSnapshot C) = some C := by
  show decodeSnapshot (76 :: 82 :: C.data.map Char.toNat) = some C
  rw [decodeSnapshot, decodeChars_map_toNat]

/-- C3: exporting a snapshot of a store holding content C and importing
those bytes into a fresh store succeeds and yields a store whose content
(both the container text and the content the editor observes) equals C;
the import also delivers its change notification. -/
theorem snapshot_roundtrip_content (C : String) :
    getSnapshot (mkStore C) = some (encodeSnapshot C)
    ∧ loadSnapshot freshEditorState (encodeSnapshot C)
        = (Except.ok (), ⟨some ⟨C, 0⟩, C, false, 1⟩)
    ∧ getContent (loadSnapshot freshEditorState (encodeSnapshot C)).2 = C := by
  refine ⟨rfl, ?_, ?_⟩
  · show loadSnapshot (mkStore "") (encodeSnapshot C) = _
    simp only [loadSnapshot, mkStore, loroImport, decodeSnapshot_encodeSnapshot,
      loroMerge, commitDoc]
    rfl
  · show getContent (loadSnapshot (mkStore "") (encodeSnapshot C)).2 = C
    simp only [loadSnapshot, mkStore, loroImport, decodeSnapshot_encodeSnapshot,
      loroMerge, commitDoc]
    rfl

/-- C4 (amended): insertText and deleteText are silent no-ops when the
store was never initialized, as claimed; but out-of-range offsets are
not clamped: an insert position beyond the content length, or a delete
range reaching past the end, raises the container out-of-bounds error,
which propagates uncaught and leaves the state unchanged. -/
theorem insertText_deleteText_bounds_behavior :
    (∀ (s : LoroEditorState) (text : String) (pos : Option Nat), s.doc = none →
        insertText s text pos = (Except.ok (), s))
    ∧ (∀ (s : LoroEditorState) (start len : Nat), s.doc = none →
        deleteText s start len = (Except.ok (), s))
    ∧ (∀ (s : LoroEditorState) (d : LoroDoc) (text : String) (p : Nat),
        s.doc = some d → d.content.length < p →
        insertText s text (some p) = (Except.error LoroError.outOfBounds, s))
    ∧ (∀ (s : LoroEditorState) (d : LoroDoc) (start len : Nat),
        s.doc = some d → d.content.length < start + len →
        deleteText s start len = (Except.error LoroError.outOfBounds, s)) := by
  refine ⟨?_, ?_, ?_, ?_⟩
  · intro s text pos hdoc
    simp only [insertText, hdoc]
  · intro s start len hdoc
    simp only [deleteText, hdoc]
  · intro s d text p hdoc hp
    simp only [insertText, hdoc, Option.getD_some, loroTextInsert,
      if_neg (by omega : ¬ p ≤ d.content.length)]
  · intro s d start len hdoc hr
    simp only [deleteText, hdoc, loroTextDelete,
      if_neg (by omega : ¬ start + len ≤ d.content.length)]

theorem insertText_deleteText_bounds_behavior_witness :
    insertText ⟨none, "", false, 0⟩ ("X") none = (Except.ok (), ⟨none, "", false, 0⟩)
    ∧ deleteText ⟨none, "", false, 0⟩ 0 1 = (Except.ok (), ⟨none, "", false, 0⟩)
    ∧ insertText (mkStore ("ab")) ("X") (some 5)
        = (Except.error LoroError.outOfBounds, mkStore ("ab"))
    ∧ deleteText (mkStore ("ab")) 1 5
        = (Except.error LoroError.outOfBounds, mkStore ("ab")) :=
  ⟨insertText_deleteText_bounds_behavior.1 _ ("X") none rfl,
    insertText_deleteText_bounds_behavior.2.1 _ 0 1 rfl,
    insertText_deleteText_bounds_behavior.2.2.1 _ ⟨"ab", 0⟩ ("X") 5 rfl (by decide),
    insertText_deleteText_bounds_behavior.2.2.2 _ ⟨"ab", 0⟩ 1 5 rfl (by decide)⟩

/-- C4 (counterexample): inserting X at position 5 into a store holding
ab (length 2) raises the out-of-bounds error instead of clamping: the
call does not produce the clamped result (content abX) the claim
requires, and the delete of five characters from position 1 raises as
well. -/
theorem insertText_out_of_range_raises :
    (insertText (mkStore ("ab")) ("X") (some 5)).1 = Except.error LoroError.outOfBounds
    ∧ (insertText (mkStore ("ab")) ("X") (some 5)).2.doc ≠ some ⟨"abX", 0⟩
    ∧ (deleteText (mkStore ("ab")) 1 5).1 = Except.error LoroError.outOfBounds :=
  ⟨rfl, by decide, rfl⟩

/-- C8 (amended): the internal-update flag of the hook is set and
cleared synchronously inside the same updateContent call (same tick),
and the reconciler flag set by handleInput is cleared by the zero-delay
timer callback it schedules: the clear runs on the next timer task, not
on the same tick and not as a microtask (see the counterexample), but it
is always queued, so no reachable state keeps a flag set forever. -/
theorem suppression_flag_eventually_cleared :
    (∀ (s : LoroEditorState) (x : String),
        (updateContent s x).isInternalUpdate = s.isInternalUpdate ∨
          (updateContent s x).isInternalUpdate = false)
    ∧ (∀ (s : LoroEditorState) (d : LoroDoc) (x : String), s.doc = some d →
        (updateContent s x).isInternalUpdate = false)
    ∧ (∀ s : SuppressionState,
        (runTimerTaskPhase (runMicrotaskPhase (handleInputRun s))).isUpdating = false) := by
  refine ⟨?_, ?_, ?_⟩
  · intro s x
    cases hdoc : s.doc with
    | none => left; simp only [updateContent, hdoc]
    | some d => right; simp only [updateContent, hdoc]
  · intro s d x hdoc
    simp only [updateContent, hdoc]
  · intro s
    simp only [handleInputRun, runMicrotaskPhase, runTimerTaskPhase]
    rw [if_pos (by omega : 0 < s.timerJobs + 1)]

theorem suppression_flag_eventually_cleared_witness :
    (mkStore ("a")).doc = some ⟨"a", 0⟩
    ∧ (updateContent (mkStore ("a")) ("b")).isInternalUpdate = false
    ∧ (runTimerTaskPhase (runMicrotaskPhase (handleInputRun idleSuppression))).isUpdating
        = false :=
  ⟨by decide,
    suppression_flag_eventually_cleared.2.1 (mkStore ("a")) ⟨"a", 0⟩ ("b") (by decide),
    suppression_flag_eventually_cleared.2.2 idleSuppression⟩

/-- C8 (counterexample): starting from the idle state, handleInput sets
the reconciler suppression flag and schedules its clear with a
zero-delay timer.  At the end of that tick, after the entire microtask
queue has drained, the flag is still set: it is not cleared on the same
tick nor by the next microtask, contradicting the claim; it clears only
when the next timer task runs. -/
theorem suppression_flag_survives_microtasks :
    (runMicrotaskPhase (handleInputRun idleSuppression)).isUpdating = true
    ∧ (runTimerTaskPhase (runMicrotaskPhase (handleInputRun idleSuppression))).isUpdating
        = false := by
  exact ⟨by decide, by decide⟩

theorem blocksMemo_off : ∀ body : HNodeList, blocksMemo false body = []
  | .nil => rfl
  | .cons _ _ => rfl

theorem allClassified_mkPList : ∀ n : Nat, allClassified (mkPList n) = true
  | 0 => rfl
  | n + 1 => by
    rw [mkPList, allClassified, allClassified_mkPList n]
    decide

theorem hLen_mkPList : ∀ n : Nat, hLen (mkPList n) = n
  | 0 => rfl
  | n + 1 => by rw [mkPList, hLen, hLen_mkPList n]

theorem parse_mkPList_length (n : Nat) (h : 0 < n) :
    (parseContentIntoBlocks (mkPList n)).length = n := by
  have hl := allClassified_length (mkPList n) ([], 0) (allClassified_mkPList n)
  rw [hLen_mkPList] at hl
  simp only [parseContentIntoBlocks,
    if_neg (by simp at hl; omega : ¬ (processNodeList ([], 0) (mkPList n)).1.length = 0)]
  simp at hl
  omega

/-- C9 (amended): at scroll offset 0 the leading overscan is clamped
away, so with 10000 blocks, viewport 600, estimate 50 and overscan 5 the
window holds the visible indices 0..12 plus 5 overscan below, 18 items
in total, not 22; and with virtualization disabled the editor block
memo is empty for every content (the full content renders in one
non-virtualized region), while the 10000-block list exists only in
virtualized mode. -/
theorem virtualization_window_and_disabled_blocks :
    getVirtualItemsLength 10000 0 600 50 5 = 18
    ∧ (blocksMemo true (mkPList 10000)).length = 10000
    ∧ ∀ body : HNodeList, blocksMemo false body = [] := by
  refine ⟨by decide, ?_, blocksMemo_off⟩
  have h1 : blocksMemo true (mkPList 10000) = parseContentIntoBlocks (mkPList 10000) := rfl
  rw [h1, parse_mkPList_length 10000 (by omega)]

/-- C9 (counterexample): the claimed window size formula
overscan*2 + ceil(viewport/estimate) = 22 does not hold at scroll offset
0 (the computed range has 18 items), and with virtualization disabled
the block list read by the editor is empty, not 10000 items long. -/
theorem virtual_items_count_mismatch :
    getVirtualItemsLength 10000 0 600 50 5 ≠ 2 * 5 + (600 + 50 - 1) / 50
    ∧ (blocksMemo false (mkPList 10000)).length ≠ 10000 := by
  constructor
  · decide
  · rw [blocksMemo_off (mkPList 10000)]
    decide
